import Mathlib

/-!
Shallow embedding of the Video_Toolkit repository pieces that the claims
concern: the mixer-GUI data model (`models/media.py`), the plan builder
(`services/mix_planner.py`), the executor (`services/task_executor.py`),
the repository update operation (`services/media_repository.py`) and the
batch script `a3_MultiAudioAuto_MixWithOriginal_dePrefix.py`.

Conventions of the embedding:
* Python floats are modelled as exact rationals (`ℚ`).
* `pathlib.Path` values are modelled as `String`.
* Python `int(x)` (truncation toward zero) is `pyInt`.
* The textual rendering of a float inside an f-string is abstracted by
  `pyFloatRepr`; only its determinism matters for the claims below.
* `random.Random(seed).uniform(0, hi)` is modelled against an arbitrary
  stream `rngU : Option ℤ → ℕ → ℚ` giving, for a generator seeded with
  `seed`, the k-th unit draw; `uniform(0, hi)` at the k-th call is
  `hi * rngU seed k`.  A fixed seed determines the stream, so any fact
  proved for every stream holds for the Mersenne-Twister one.
* Filesystem effects of the executor are modelled by tracking the list of
  temporary files each step creates and the list the cleanup loop removes.
-/

namespace VideoToolkit

/-- Python `int(x)`: truncation toward zero. -/
def pyInt (q : ℚ) : ℤ := if 0 ≤ q then ⌊q⌋ else ⌈q⌉

/-- Abstraction of the decimal text Python produces for a float inside an
f-string.  The claims only need this rendering to be a function of the
value. -/
def pyFloatRepr (q : ℚ) : String := toString q.num ++ "/" ++ toString q.den

/-- Round a rational to the nearest integer, ties to even — the rounding
step of IEEE-754 round-to-nearest-even. -/
def roundNearestEvenInt (x : ℚ) : ℤ :=
  let f := ⌊x⌋
  let r := x - (f : ℚ)
  if r < 1/2 then f
  else if 1/2 < r then f + 1
  else if f % 2 = 0 then f else f + 1

/-- IEEE-754 binary64 rounding over exact rationals: round-to-nearest-even
at 53 significant bits with unbounded exponent (no overflow or subnormals,
which never arise at the magnitudes this program handles — frame counts,
seconds and frame rates).  `fl (a / b)` and `fl (a * b)` are the values a
Python float division and multiplication of exactly-represented operands
produce. -/
def fl (x : ℚ) : ℚ :=
  if x = 0 then 0
  else
    let e : ℤ := Int.log 2 |x| - 52
    let m : ℤ := roundNearestEvenInt (|x| / 2 ^ e)
    if 0 < x then (m : ℚ) * 2 ^ e else -((m : ℚ) * 2 ^ e)

/-- Source: `models/media.py`: `AudioCategory` — SE (effect), VO (voice), MUSIC. -/
inductive AudioCategory where
  | se
  | vo
  | music
deriving DecidableEq, Repr

/-- Source: `models/media.py`: `LengthMode` for the music track. -/
inductive LengthMode where
  | match_video
  | fixed_seconds
  | fixed_frames
deriving DecidableEq, Repr

/-- Source: `models/media.py`: `VideoClip` (identifier and display fields that no
claim inspects are kept as plain data). -/
structure VideoClip where
  file_path : String
  display_name : String
  duration_seconds : ℚ
  fps : ℚ
  resolution : ℕ × ℕ
  has_audio : Bool
deriving DecidableEq, Repr

/-- Source: `models/media.py`: `AudioClip`. -/
structure AudioClip where
  file_path : String
  category : AudioCategory
  duration_seconds : ℚ
  sample_rate : ℕ
  display_name : String
  start_frame : Option ℤ := none
  source_start_seconds : ℚ := 0
deriving DecidableEq, Repr

/-- Source: `AudioClip.start_seconds`: `start_frame or 0` then divide by fps when
positive.  (Python `x or 0` maps both `None` and `0` to `0`, which agrees
with `Option.getD` here since `0 or 0 == 0`.)  This is the exact-rational
level of the embedding, used by the extension and offset claims whose
tolerances absorb binary64 rounding; the rounding-accurate variant is
`AudioClip.start_seconds_fl` below. -/
def AudioClip.start_seconds (clip : AudioClip) (fps : ℚ) : ℚ :=
  let start_frame : ℤ := clip.start_frame.getD 0
  if fps ≤ 0 then 0 else (start_frame : ℚ) / fps

/-- Binary64-accurate `AudioClip.start_seconds`: the Python division
`start_frame / fps` rounds its exact quotient to the nearest double, so
the produced value is `fl` of the rational quotient. -/
def AudioClip.start_seconds_fl (clip : AudioClip) (fps : ℚ) : ℚ :=
  let start_frame : ℤ := clip.start_frame.getD 0
  if fps ≤ 0 then 0 else fl ((start_frame : ℚ) / fps)

/-- Source: `models/media.py`: `TrackConfig`. -/
structure TrackConfig where
  video_id : String
  override_original : Bool := false
  enable_limiter : Bool := true
  music_random_seed : Option ℤ := none
  music_retry_limit : ℤ := 3
  music_random_enabled : Bool := false
  music_length_mode : LengthMode := .match_video
  music_length_value : Option ℚ := none
  music_start_offset : ℚ := 0
  video_audio_lead : ℚ := 0
deriving DecidableEq, Repr

/-- Source: `models/media.py`: `MixSession`. -/
structure MixSession where
  video_clip : VideoClip
  audio_clips : List AudioClip
  config : TrackConfig
  target_output : String
deriving DecidableEq, Repr

/-- Source: `MixSession.black_extension_duration`: fold over the clips, skipping
any whose category is not SE or VO, tracking the latest SE/VO end time
(seeded with the video duration), then clamp the overrun at zero. -/
def MixSession.black_extension_duration (s : MixSession) : ℚ :=
  let video_duration := s.video_clip.duration_seconds
  let se_vo_end := s.audio_clips.foldl
    (fun acc clip =>
      if clip.category = AudioCategory.se ∨ clip.category = AudioCategory.vo then
        max acc (clip.start_seconds s.video_clip.fps + clip.duration_seconds)
      else
        acc)
    video_duration
  max 0 (se_vo_end - video_duration)

/-- Source: `MixSession.requires_black_extension`. -/
def MixSession.requires_black_extension (s : MixSession) : Bool :=
  decide (0 < s.black_extension_duration)

/-- Source: `services/mix_planner.py`: `MixPlan` dataclass. -/
structure MixPlan where
  video_input : String
  audio_inputs : List String := []
  audio_filters : List String := []
  output_args : List String := []
  needs_black_extension : Bool := false
  black_extension_duration : ℚ := 0
  video_resolution : ℕ × ℕ := (0, 0)
  video_fps : ℚ := 0
  black_clip_path : Option String := none
  concat_list_path : Option String := none
  extended_video_path : Option String := none
  audio_output_label : String := "aout"
  include_original_audio : Bool := false
  amix_normalize : ℕ := 0
deriving DecidableEq, Repr

/-- The unit-interval draw stream of a seeded `random.Random` generator:
`rngU seed k` is the k-th `random()` value of a generator built with
`random.Random(seed)`. -/
abbrev RngStream := Option ℤ → ℕ → ℚ

namespace MixPlanner

/-- Source: `MixPlanner._random_music_offset`: guard degenerate durations, then
re-roll `max(retry_limit, 1)` times keeping only the last draw, each draw
being `uniform(0.0, max_start)`. -/
def _random_music_offset (rngU : RngStream) (clip : AudioClip) (s : MixSession) : ℚ :=
  let total_duration := max clip.duration_seconds 0
  if s.video_clip.duration_seconds ≤ 0 ∨ total_duration ≤ 0 then 0
  else
    let max_start := max (total_duration - s.video_clip.duration_seconds) 0
    if max_start ≤ 0 then 0
    else
      let attempts := max s.config.music_retry_limit 1
      (List.range attempts.toNat).foldl
        (fun _best k => max_start * rngU s.config.music_random_seed k) 0

/-- Source: `MixPlanner._music_length_trim`. -/
def _music_length_trim (s : MixSession) : Option String :=
  let mode := s.config.music_length_mode
  match s.config.music_length_value with
  | none => none
  | some value =>
    if mode = LengthMode.match_video then none
    else if mode = LengthMode.fixed_seconds then
      some ("atrim=0:" ++ pyFloatRepr value)
    else if mode = LengthMode.fixed_frames then
      some ("atrim=0:" ++ pyFloatRepr (value / max s.video_clip.fps 1))
    else none

/-- State threaded through `_build_clip_filters`' nested helpers:
accumulated filter fragments, the current input reference and the label
counter. -/
structure ChainState where
  filters : List String
  current_ref : String
  label_counter : ℕ
deriving DecidableEq, Repr

/-- The nested `apply_filter` helper of `_build_clip_filters`: burn a fresh
`_flt_` label, append one fragment, move the current reference. -/
def applyFilter (output_label : String) (st : ChainState) (filter_expr : String) : ChainState :=
  let label_counter := st.label_counter + 1
  let new_label := output_label ++ "_flt_" ++ toString label_counter
  { filters := st.filters ++ [st.current_ref ++ filter_expr ++ "[" ++ new_label ++ "]"]
    current_ref := "[" ++ new_label ++ "]"
    label_counter := label_counter }

/-- Source: `MixPlanner._build_clip_filters`: source-offset trim (with music start
offset and optional random offset), music length trim, timeline delay,
then a terminating `anull` rename whenever the current reference is not
already the output label. -/
def _build_clip_filters (rngU : RngStream) (index : ℕ) (clip : AudioClip)
    (s : MixSession) : String × List String :=
  let output_label := "a" ++ toString index
  let st0 : ChainState := ⟨[], "[" ++ toString (index + 1) ++ ":a]", 0⟩
  let source_offset :=
    clip.source_start_seconds +
      (if clip.category = AudioCategory.music then
        max 0 s.config.music_start_offset +
          (if s.config.music_random_enabled then _random_music_offset rngU clip s else 0)
      else 0)
  let st1 :=
    if 0 < source_offset then
      applyFilter output_label st0
        ("atrim=start=" ++ pyFloatRepr source_offset ++ ",asetpts=PTS-STARTPTS")
    else st0
  let st2 :=
    if clip.category = AudioCategory.music then
      match _music_length_trim s with
      | some trim_expr => applyFilter output_label st1 (trim_expr ++ ",asetpts=PTS-STARTPTS")
      | none => st1
    else st1
  let delay_seconds :=
    max 0 (clip.start_seconds s.video_clip.fps + max 0 s.config.video_audio_lead)
  let st3 :=
    if 0 < delay_seconds then
      let delay_ms := pyInt (delay_seconds * 1000)
      applyFilter output_label st2 ("adelay=" ++ toString delay_ms ++ "|" ++ toString delay_ms)
    else st2
  let final_filters :=
    if st3.current_ref ≠ "[" ++ output_label ++ "]" then
      st3.filters ++ [st3.current_ref ++ "anull[" ++ output_label ++ "]"]
    else st3.filters
  (output_label, final_filters)

/-- Source: `MixPlanner._build_original_filters`: optional global-lead delay on
`[0:a]` then the terminating `anull` rename to `orig_audio`. -/
def _build_original_filters (s : MixSession) : String × List String :=
  let output_label := "orig_audio"
  let delay_seconds := max 0 s.config.video_audio_lead
  let afterDelay : String × List String :=
    if 0 < delay_seconds then
      let delay_ms := pyInt (delay_seconds * 1000)
      ("[" ++ output_label ++ "_delay]",
        ["[0:a]" ++ "adelay=" ++ toString delay_ms ++ "|" ++ toString delay_ms ++
          "[" ++ output_label ++ "_delay]"])
    else ("[0:a]", [])
  let current_ref := afterDelay.1
  let filters := afterDelay.2
  if current_ref ≠ "[" ++ output_label ++ "]" then
    (output_label, filters ++ [current_ref ++ "anull[" ++ output_label ++ "]"])
  else (output_label, filters)

/-- Filename stem of a path (basename without the final extension),
modelling `pathlib.Path.stem`. -/
def pathStem (p : String) : String :=
  let base := ((p.splitOn "/").getLast? ).getD ""
  let pieces := base.splitOn "."
  if pieces.length ≤ 1 then base
  else String.intercalate "." pieces.dropLast

/-- Directory part of a path, modelling `pathlib.Path.parent`. -/
def pathParent (p : String) : String :=
  String.intercalate "/" (p.splitOn "/").dropLast

/-- Source: `MixPlanner.build_plan`.  `uuidHex` stands for the `uuid4().hex` token
drawn when temp paths for the black-extension pipeline are named. -/
def build_plan (rngU : RngStream) (uuidHex : String) (session : MixSession) : MixPlan :=
  let include_original :=
    !session.config.override_original && session.video_clip.has_audio
  let amix_normalize : ℕ := if session.config.enable_limiter then 1 else 0
  let clipResults :=
    session.audio_clips.enum.map (fun ic => _build_clip_filters rngU ic.1 ic.2 session)
  let clip_filters := clipResults.flatMap (fun r => r.2)
  let clip_outputs := clipResults.map (fun r => r.1)
  let audio_outputs :=
    if include_original then clip_outputs ++ [(_build_original_filters session).1]
    else clip_outputs
  let audio_filters :=
    if include_original then clip_filters ++ (_build_original_filters session).2
    else clip_filters
  let audio_filters :=
    if audio_outputs ≠ [] then
      audio_filters ++
        [String.join (audio_outputs.map (fun label => "[" ++ label ++ "]")) ++
          "amix=inputs=" ++ toString audio_outputs.length ++
          ":normalize=" ++ toString amix_normalize ++ "[aout]"]
    else audio_filters
  let bed := session.black_extension_duration
  let needs := decide (0 < bed)
  let base_dir := pathParent session.video_clip.file_path
  let stem := pathStem session.video_clip.file_path
  { video_input := session.video_clip.file_path
    audio_inputs := session.audio_clips.map (fun c => c.file_path)
    audio_filters := audio_filters
    output_args := ["-c:v", "copy", "-c:a", "aac", "-b:a", "192k"]
    needs_black_extension := needs
    black_extension_duration := bed
    video_resolution := session.video_clip.resolution
    video_fps := session.video_clip.fps
    black_clip_path :=
      if needs then some (base_dir ++ "/" ++ stem ++ "_black_" ++ uuidHex ++ ".mp4") else none
    concat_list_path :=
      if needs then some (base_dir ++ "/" ++ stem ++ "_concat_" ++ uuidHex ++ ".txt") else none
    extended_video_path :=
      if needs then some (base_dir ++ "/" ++ stem ++ "_extended_" ++ uuidHex ++ ".mp4") else none
    audio_output_label := "aout"
    include_original_audio := include_original
    amix_normalize := amix_normalize }

end MixPlanner

namespace TaskExecutor

/-- The outside world as `TaskExecutor._run_plan` sees it: the return code
each ffmpeg invocation would produce.  (`blackRc` for
`generate_black_clip`, `concatRc` for `concat_videos`, `finalRc` for the
final `run_command`.) -/
structure AdapterBeh where
  blackRc : ℤ
  concatRc : ℤ
  finalRc : ℤ
deriving DecidableEq, Repr

/-- Observable effects of one `_run_plan` call: every temporary artifact
the run created, the temp files still on disk when the function returned,
and the final ffmpeg command when the run reached it. -/
structure RunOutcome where
  createdTemp : List String
  remainingTemp : List String
  finalCommand : Option (List String)
deriving DecidableEq, Repr

/-- The final mix command assembled by `_run_plan` (same shape as
`PreviewController._build_preview_command`'s mapping section): inputs,
then the three-way filter/map branch, then output args and the output
path. -/
def _final_command (plan : MixPlan) (video_input : String) (output_path : String) :
    List String :=
  let command := ["-i", video_input] ++ plan.audio_inputs.flatMap (fun p => ["-i", p])
  let command :=
    if plan.audio_filters ≠ [] then
      command ++ ["-filter_complex", String.intercalate ";" plan.audio_filters] ++
        ["-map", "0:v:0", "-map", "[" ++ plan.audio_output_label ++ "]"]
    else if plan.audio_inputs ≠ [] then
      command ++ ["-map", "0:v:0", "-map", "1:a:0"]
    else
      command ++ ["-map", "0:v:0"]
  command ++ plan.output_args ++ [output_path]

/-- Source: `TaskExecutor._run_plan`.  File effects: a successful
`generate_black_clip` creates the black clip, `write_text` creates the
concat list, a successful `concat_videos` creates the extended video; the
cleanup loop at the end of the function unlinks exactly the paths
accumulated in `temp_paths`.  The two mid-pipeline failure branches
`return` before reaching that loop. -/
def _run_plan (plan : MixPlan) (beh : AdapterBeh) (output_path : String) : RunOutcome :=
  match plan.needs_black_extension, plan.black_clip_path, plan.concat_list_path,
      plan.extended_video_path with
  | true, some black, some concat_list, some extended =>
    if beh.blackRc ≠ 0 then
      -- early return: the cleanup loop is never reached
      { createdTemp := [], remainingTemp := [], finalCommand := none }
    else
      -- black clip generated, concat list written
      let created := [black, concat_list]
      if beh.concatRc ≠ 0 then
        -- early return before `temp_paths` is populated: nothing is removed
        { createdTemp := created, remainingTemp := created, finalCommand := none }
      else
        let created := created ++ [extended]
        let temp_paths := [black, concat_list, extended]
        let command := _final_command plan extended output_path
        { createdTemp := created
          remainingTemp := created.filter (fun p => ¬ p ∈ temp_paths)
          finalCommand := some command }
  | _, _, _, _ =>
    { createdTemp := []
      remainingTemp := []
      finalCommand := some (_final_command plan plan.video_input output_path) }

end TaskExecutor

namespace MediaRepository

/-- Source: `MediaRepository.update_audio_parameters`, restricted to the
`start_frame` field it writes:
`clip.start_frame = int(start_seconds * fps) if fps > 0 else None`.
The Python product of two doubles rounds to the nearest double before
`int` truncates, so the multiplication goes through `fl`. -/
def updated_start_frame (start_seconds : ℚ) (fps : ℚ) : Option ℤ :=
  if 0 < fps then some (pyInt (fl (start_seconds * fps))) else none

end MediaRepository

namespace MixScript

/-- Outcome classification returned by `process_video_task` in
`a3_MultiAudioAuto_MixWithOriginal_dePrefix.py`. -/
inductive TaskStatus where
  | success
  | skipped
  | failed
deriving DecidableEq, Repr

/-- Source: `find_and_mix_audio`: returns the prepared external-audio path and the
temp file to clean (if a pre-mix produced one).  `dirExists` models
`os.path.isdir`, `matching` the files of the audio directory whose names
end in the video's suffix, `premixOk` whether the pre-mix ffmpeg call
returns zero, `tempName` the timestamped temp wav name. -/
def find_and_mix_audio (dirExists : Bool) (matching : List String) (premixOk : Bool)
    (tempName : String) : Option String × Option String :=
  if !dirExists then (none, none)
  else
    match matching with
    | [] => (none, none)
    | [a] => (some a, none)
    | _ :: _ :: _ => if premixOk then (some tempName, some tempName) else (none, none)

/-- Whether `find_and_mix_audio` reaches its pre-mix ffmpeg invocation:
only when the directory listing succeeded and at least two audio files
matched. -/
def premix_invoked (dirExists : Bool) (matching : List String) : Bool :=
  dirExists && decide (2 ≤ matching.length)

/-- Environment of one `process_video_task` run.  Probe/parse failures for
the two durations are folded into `none` (both the `None`-probe and the
`ValueError` branch return `failed` identically). -/
structure TaskEnv where
  audioDirExists : Bool
  matching : List String
  premixOk : Bool
  tempName : String
  videoDuration : Option ℚ
  originalAudioExists : Bool
  externalDuration : Option ℚ
  attrsOk : Bool
  listWriteOk : Bool
  blackOk : Bool
  concatOk : Bool
  finalOk : Bool
deriving DecidableEq, Repr

/-- Source: `process_video_task`: skipped when no external audio was prepared,
then failed at each unsuccessful step of duration probing, black-screen
extension and the final merge, success only when the final ffmpeg call
succeeds. -/
def process_video_task (e : TaskEnv) : TaskStatus :=
  let prepared :=
    (find_and_mix_audio e.audioDirExists e.matching e.premixOk e.tempName).1
  match prepared with
  | none => .skipped
  | some _ =>
    match e.videoDuration, e.externalDuration with
    | some video_duration, some external_duration =>
      let final_step : TaskStatus := if e.finalOk then .success else .failed
      if video_duration + 1 / 10 < external_duration then
        if ¬ e.attrsOk then .failed
        else if ¬ e.blackOk then .failed
        else if ¬ e.listWriteOk then .failed
        else if ¬ e.concatOk then .failed
        else final_step
      else final_step
    | _, _ => .failed

end MixScript

/-! Concrete instances used by witnesses and counterexamples. -/

/-- Example video: 5 s at 25 fps, with a native audio track. -/
def exVideo : VideoClip :=
  { file_path := "dir/demo.mp4", display_name := "demo.mp4", duration_seconds := 5,
    fps := 25, resolution := (1920, 1080), has_audio := true }

/-- Example SE clip, 6 s long, placed at frame 0 (it overruns `exVideo`). -/
def exSeClip : AudioClip :=
  { file_path := "se.wav", category := .se, duration_seconds := 6, sample_rate := 48000,
    display_name := "se.wav", start_frame := some 0, source_start_seconds := 0 }

/-- Example MUSIC clip, 20 s long. -/
def exMusicClip : AudioClip :=
  { file_path := "music.wav", category := .music, duration_seconds := 20,
    sample_rate := 48000, display_name := "music.wav", start_frame := some 0,
    source_start_seconds := 0 }

/-- Example VO clip placed at frame 3. -/
def exVoClip : AudioClip :=
  { file_path := "vo.wav", category := .vo, duration_seconds := 2, sample_rate := 48000,
    display_name := "vo.wav", start_frame := some 3, source_start_seconds := 0 }

/-- Example VO clip placed at frame 15, for the binary64 round-trip
counterexample at 11 fps. -/
def exClipFrame15 : AudioClip :=
  { file_path := "vo15.wav", category := .vo, duration_seconds := 2, sample_rate := 48000,
    display_name := "vo15.wav", start_frame := some 15, source_start_seconds := 0 }

/-- Example configuration with a fixed random seed and random start on. -/
def exConfig : TrackConfig :=
  { video_id := "vid", music_random_seed := some 7, music_retry_limit := 3,
    music_random_enabled := true }

/-- Session with one overrunning SE clip. -/
def exSessionSeVo : MixSession :=
  { video_clip := exVideo, audio_clips := [exSeClip], config := exConfig,
    target_output := "out.mp4" }

/-- Session whose only clip is MUSIC. -/
def exSessionMusicOnly : MixSession :=
  { video_clip := exVideo, audio_clips := [exMusicClip], config := exConfig,
    target_output := "out.mp4" }

/-- Degenerate random stream: every draw is 0. -/
def exRng : RngStream := fun _ _ => 0

/-- Plan with two audio inputs and no filter chain. -/
def exPlanDirect : MixPlan := { video_input := "v.mp4", audio_inputs := ["x.wav", "y.wav"] }

/-- Plan with one audio input and a one-fragment filter chain. -/
def exPlanFiltered : MixPlan :=
  { video_input := "v.mp4", audio_inputs := ["x.wav"], audio_filters := ["[1:a]anull[aout]"] }

/-- Plan that needs the black-extension pipeline. -/
def exPlanExt : MixPlan :=
  { video_input := "v.mp4", needs_black_extension := true,
    black_clip_path := some "v_black.mp4", concat_list_path := some "v_concat.txt",
    extended_video_path := some "v_extended.mp4" }

/-- Adapter behaviour: black-clip generation succeeds, concatenation fails. -/
def exBehConcatFail : TaskExecutor.AdapterBeh := { blackRc := 0, concatRc := 1, finalRc := 0 }

/-- Adapter behaviour: every invocation succeeds. -/
def exBehAllOk : TaskExecutor.AdapterBeh := { blackRc := 0, concatRc := 0, finalRc := 0 }

/-- Script environment: two matching audio files whose pre-mix invocation
fails; everything else would succeed. -/
def exEnvPremixFail : MixScript.TaskEnv :=
  { audioDirExists := true, matching := ["a one.wav", "b one.wav"], premixOk := false,
    tempName := "temp_combined.wav", videoDuration := some 5, originalAudioExists := true,
    externalDuration := some 6, attrsOk := true, listWriteOk := true, blackOk := true,
    concatOk := true, finalOk := true }

/-! Infrastructure lemmas. -/

theorem int_log2_eq {q : ℚ} (e : ℤ) (hq : 0 < q) (h1 : (2:ℚ)^e ≤ q) (h2 : q < (2:ℚ)^(e+1)) :
    Int.log 2 q = e := by
  have ha : (2:ℚ) ^ Int.log 2 q ≤ q := Int.zpow_log_le_self (by norm_num) hq
  have hb : q < (2:ℚ) ^ (Int.log 2 q + 1) := Int.lt_zpow_succ_log_self (by norm_num) q
  have hc : (2:ℚ)^e < 2 ^ (Int.log 2 q + 1) := lt_of_le_of_lt h1 hb
  have hd : (2:ℚ)^(Int.log 2 q) < 2 ^ (e+1) := lt_of_le_of_lt ha h2
  have he : e < Int.log 2 q + 1 := by
    by_contra hcon
    push_neg at hcon
    exact absurd hc (not_lt.mpr (zpow_le_zpow_right₀ (by norm_num) hcon))
  have hf : Int.log 2 q < e + 1 := by
    by_contra hcon
    push_neg at hcon
    exact absurd hd (not_lt.mpr (zpow_le_zpow_right₀ (by norm_num) hcon))
  omega

theorem roundNEI_err (x : ℚ) : |(roundNearestEvenInt x : ℚ) - x| ≤ 1/2 := by
  simp only [roundNearestEvenInt]
  have h0 : (⌊x⌋ : ℚ) ≤ x := Int.floor_le x
  have h1 : x < ⌊x⌋ + 1 := Int.lt_floor_add_one x
  split_ifs with ha hb hc
  · rw [abs_sub_comm, abs_of_nonneg (by linarith)]
    linarith
  · rw [abs_of_nonneg (by push_cast; linarith)]
    push_cast
    linarith
  · push_neg at ha hb
    rw [abs_sub_comm, abs_of_nonneg (by linarith)]
    linarith
  · push_neg at ha hb
    rw [abs_of_nonneg (by push_cast; linarith)]
    push_cast
    linarith

theorem fl_pos_err {x : ℚ} (hx : 0 < x) : |fl x - x| ≤ x / 2 ^ 53 := by
  have hxne : x ≠ 0 := ne_of_gt hx
  simp only [fl, if_neg hxne, abs_of_pos hx, if_pos hx]
  have hpow : (0:ℚ) < 2 ^ (Int.log 2 x - 52 : ℤ) := zpow_pos (by norm_num) _
  have key := roundNEI_err (x / 2 ^ (Int.log 2 x - 52 : ℤ))
  have hL : (2:ℚ)^(Int.log 2 x) ≤ x := Int.zpow_log_le_self (by norm_num) hx
  have hsplit : (2:ℚ) ^ (Int.log 2 x - 52 : ℤ) = 2 ^ (Int.log 2 x) * 2 ^ (-52 : ℤ) := by
    rw [sub_eq_add_neg, zpow_add₀ (by norm_num : (2:ℚ) ≠ 0)]
  have hle : (2:ℚ) ^ (Int.log 2 x - 52 : ℤ) ≤ x * 2 ^ (-52 : ℤ) := by
    rw [hsplit]
    exact mul_le_mul_of_nonneg_right hL (zpow_pos (by norm_num) _).le
  have hconv : x * (2:ℚ) ^ (-52 : ℤ) = x / 2 ^ 52 := by
    rw [zpow_neg, ← div_eq_mul_inv]
    norm_num
  calc |(roundNearestEvenInt (x / 2 ^ (Int.log 2 x - 52 : ℤ)) : ℚ) *
          2 ^ (Int.log 2 x - 52 : ℤ) - x|
      = |((roundNearestEvenInt (x / 2 ^ (Int.log 2 x - 52 : ℤ)) : ℚ) -
          x / 2 ^ (Int.log 2 x - 52 : ℤ)) * 2 ^ (Int.log 2 x - 52 : ℤ)| := by
        rw [sub_mul, div_mul_cancel₀ _ (ne_of_gt hpow)]
    _ = |(roundNearestEvenInt (x / 2 ^ (Int.log 2 x - 52 : ℤ)) : ℚ) -
          x / 2 ^ (Int.log 2 x - 52 : ℤ)| * 2 ^ (Int.log 2 x - 52 : ℤ) := by
        rw [abs_mul, abs_of_pos hpow]
    _ ≤ (1/2) * 2 ^ (Int.log 2 x - 52 : ℤ) := mul_le_mul_of_nonneg_right key hpow.le
    _ ≤ (1/2) * (x / 2 ^ 52) := by
        rw [← hconv]
        exact mul_le_mul_of_nonneg_left hle (by norm_num)
    _ = x / 2 ^ 53 := by ring

theorem fl_eval {x y : ℚ} (L : ℤ) (f : ℤ) (hx : 0 < x)
    (hL1 : (2:ℚ)^L ≤ x) (hL2 : x < (2:ℚ)^(L+1))
    (hy : x / 2 ^ (L - 52 : ℤ) = y)
    (hf1 : (f:ℚ) ≤ y) (hf2 : y < (f:ℚ) + 1) (hr : y - (f:ℚ) < 1/2) :
    fl x = (f:ℚ) * 2 ^ (L - 52 : ℤ) := by
  have hlog : Int.log 2 x = L := int_log2_eq L hx hL1 hL2
  have hfloor : ⌊x / 2 ^ (L - 52 : ℤ)⌋ = f := by
    rw [hy, Int.floor_eq_iff]
    exact ⟨hf1, by linarith⟩
  simp only [fl, if_neg (ne_of_gt hx), abs_of_pos hx, if_pos hx, hlog]
  simp only [roundNearestEvenInt, hfloor]
  rw [hy, if_pos (by linarith)]

theorem fl_15_11 : fl ((15:ℚ)/11) = 6141272219141585 / 4503599627370496 := by
  have h := fl_eval (x := (15:ℚ)/11) (y := (67553994410557440:ℚ)/11) 0 6141272219141585
    (by norm_num) (by norm_num) (by norm_num)
    (by rw [show ((0:ℤ) - 52) = (-52:ℤ) by norm_num, zpow_neg, div_inv_eq_mul]; norm_num)
    (by norm_num) (by norm_num) (by norm_num)
  rw [h, show ((0:ℤ) - 52) = (-52:ℤ) by norm_num, zpow_neg]
  norm_num

theorem fl_prod_15_11 : fl ((6141272219141585 / 4503599627370496 : ℚ) * 11) =
    8444249301319679 / 562949953421312 := by
  have harg : (6141272219141585 / 4503599627370496 : ℚ) * 11 =
      67553994410557435 / 4503599627370496 := by norm_num
  rw [harg]
  have h := fl_eval (x := (67553994410557435:ℚ)/4503599627370496)
    (y := (67553994410557435:ℚ)/8) 3 8444249301319679
    (by norm_num) (by norm_num) (by norm_num)
    (by rw [show ((3:ℤ) - 52) = (-49:ℤ) by norm_num, zpow_neg, div_inv_eq_mul]; norm_num)
    (by norm_num) (by norm_num) (by norm_num)
  rw [h, show ((3:ℤ) - 52) = (-49:ℤ) by norm_num, zpow_neg]
  norm_num

theorem pyInt_roundtrip_fl (n : ℤ) (fps : ℚ) (hfps : 0 < fps) (hn1 : 1 ≤ n)
    (hn2 : n ≤ 2 ^ 51) :
    pyInt (fl (fl ((n:ℚ)/fps) * fps)) = n ∨ pyInt (fl (fl ((n:ℚ)/fps) * fps)) = n - 1 := by
  have h53 : (0:ℚ) < 2 ^ 53 := by norm_num
  have hnQ : (1:ℚ) ≤ (n:ℚ) := by exact_mod_cast hn1
  have hnQ2 : (n:ℚ) ≤ 2 ^ 51 := by exact_mod_cast hn2
  have hx1 : (0:ℚ) < (n:ℚ)/fps := div_pos (by linarith) hfps
  have her := fl_pos_err hx1
  set r := fl ((n:ℚ)/fps) with hrdef
  have hq : (n:ℚ)/2^53 ≤ 1/4 := by
    rw [div_le_iff₀ h53]
    norm_num
    linarith
  have hp0 : |r * fps - n| ≤ (n:ℚ)/2^53 := by
    have hfac : r * fps - n = (r - (n:ℚ)/fps) * fps := by
      field_simp
    rw [hfac, abs_mul, abs_of_pos hfps]
    calc |r - (n:ℚ)/fps| * fps ≤ (((n:ℚ)/fps) / 2^53) * fps :=
          mul_le_mul_of_nonneg_right her hfps.le
      _ = (n:ℚ) / 2^53 := by field_simp; ring
  obtain ⟨ha1, ha2⟩ := abs_le.mp hp0
  have hp0pos : 0 < r * fps := by
    have : (n:ℚ)/2^53 < n := div_lt_self (by linarith) (by norm_num)
    linarith
  have hp := fl_pos_err hp0pos
  obtain ⟨hb1, hb2⟩ := abs_le.mp hp
  have hup : r * fps ≤ (n:ℚ) + 1/4 := by linarith
  have hgg : (r * fps)/2^53 ≤ 1/2 := by
    rw [div_le_iff₀ h53]
    nlinarith
  have hub : fl (r * fps) < (n:ℚ) + 1 := by linarith
  have hlb : (n:ℚ) - 1 < fl (r * fps) := by linarith
  have hppos : (0:ℚ) ≤ fl (r * fps) := by linarith
  have hfloor1 : n - 1 ≤ ⌊fl (r * fps)⌋ := Int.le_floor.mpr (by push_cast; linarith)
  have hfloor2 : ⌊fl (r * fps)⌋ < n + 1 := Int.floor_lt.mpr (by push_cast; linarith)
  have hpy : pyInt (fl (r * fps)) = ⌊fl (r * fps)⌋ := by
    unfold pyInt
    rw [if_pos hppos]
  rcases (by omega : ⌊fl (r * fps)⌋ = n ∨ ⌊fl (r * fps)⌋ = n - 1) with h | h
  · left; rw [hpy, h]
  · right; rw [hpy, h]

theorem digitChar_isDigit {m : ℕ} (h : m < 10) : (Nat.digitChar m).isDigit = true := by
  interval_cases m <;> rfl

theorem toDigitsCore_mem (fuel : ℕ) :
    ∀ (n : ℕ) (ds : List Char) (c : Char), c ∈ Nat.toDigitsCore 10 fuel n ds →
      c ∈ ds ∨ c.isDigit = true := by
  induction fuel with
  | zero => intro n ds c hc; exact Or.inl hc
  | succ fuel ih =>
    intro n ds c hc
    simp only [Nat.toDigitsCore] at hc
    split at hc
    · rcases List.mem_cons.mp hc with h | h
      · exact Or.inr (h ▸ digitChar_isDigit (Nat.mod_lt n (by norm_num)))
      · exact Or.inl h
    · rcases ih (n / 10) (Nat.digitChar (n % 10) :: ds) c hc with h | h
      · rcases List.mem_cons.mp h with h' | h'
        · exact Or.inr (h' ▸ digitChar_isDigit (Nat.mod_lt n (by norm_num)))
        · exact Or.inl h'
      · exact Or.inr h

theorem toDigitsCore_length (fuel : ℕ) :
    ∀ (n : ℕ) (ds : List Char), ds.length ≤ (Nat.toDigitsCore 10 fuel n ds).length := by
  induction fuel with
  | zero => intro n ds; exact le_refl _
  | succ fuel ih =>
    intro n ds
    simp only [Nat.toDigitsCore]
    split
    · simp
    · calc ds.length ≤ (Nat.digitChar (n % 10) :: ds).length := by simp
        _ ≤ _ := ih (n / 10) _

theorem toDigits_ne_nil (n : ℕ) : Nat.toDigits 10 n ≠ [] := by
  unfold Nat.toDigits
  simp only [Nat.toDigitsCore]
  split
  · simp
  · intro h
    have := toDigitsCore_length n (n / 10) (Nat.digitChar (n % 10) :: [])
    rw [h] at this
    simp at this

theorem natRepr_data (n : ℕ) : (Nat.repr n).data = Nat.toDigits 10 n := rfl

theorem natRepr_length_pos (n : ℕ) : 0 < (Nat.repr n).length := by
  have h := toDigits_ne_nil n
  have : (Nat.repr n).length = (Nat.toDigits 10 n).length := rfl
  rw [this]
  exact List.length_pos.mpr h

theorem natRepr_head_digit (n : ℕ) :
    ∃ c cs, (Nat.repr n).data = c :: cs ∧ c.isDigit = true := by
  rcases List.exists_cons_of_ne_nil (toDigits_ne_nil n) with ⟨c, cs, h⟩
  refine ⟨c, cs, by rw [natRepr_data, h], ?_⟩
  have hc : c ∈ Nat.toDigits 10 n := by rw [h]; exact List.mem_cons_self _ _
  rcases toDigitsCore_mem (n + 1) n [] c hc with h' | h'
  · exact absurd h' (List.not_mem_nil c)
  · exact h'

theorem build_plan_needs (rngU : RngStream) (uuidHex : String) (s : MixSession) :
    (MixPlanner.build_plan rngU uuidHex s).needs_black_extension =
      decide (0 < s.black_extension_duration) := rfl

theorem build_plan_bed (rngU : RngStream) (uuidHex : String) (s : MixSession) :
    (MixPlanner.build_plan rngU uuidHex s).black_extension_duration =
      s.black_extension_duration := rfl

theorem le_foldl_max (l : List ℚ) : ∀ i : ℚ, i ≤ l.foldl max i := by
  induction l with
  | nil => intro i; exact le_refl i
  | cons a l ih =>
    intro i
    exact le_trans (le_max_left i a) (ih (max i a))

theorem foldl_max_mem (l : List ℚ) : ∀ (i x : ℚ), x ∈ l → x ≤ l.foldl max i := by
  induction l with
  | nil => intro i x hx; exact absurd hx (List.not_mem_nil x)
  | cons a l ih =>
    intro i x hx
    simp only [List.foldl_cons]
    rcases List.mem_cons.mp hx with h | h
    · rw [h]
      exact le_trans (le_max_right i a) (le_foldl_max l (max i a))
    · exact ih (max i a) x h

theorem sevo_foldl_music (fps : ℚ) (l : List AudioClip) (i : ℚ)
    (h : ∀ c ∈ l, c.category = AudioCategory.music) :
    l.foldl
      (fun acc clip =>
        if clip.category = AudioCategory.se ∨ clip.category = AudioCategory.vo then
          max acc (clip.start_seconds fps + clip.duration_seconds)
        else acc) i = i := by
  induction l generalizing i with
  | nil => rfl
  | cons c l ih =>
    have hcm := h c (List.mem_cons_self _ _)
    simp only [List.foldl_cons]
    rw [if_neg (by rw [hcm]; rintro (h' | h') <;> exact AudioCategory.noConfusion h')]
    exact ih i (fun d hd => h d (List.mem_cons_of_mem _ hd))

theorem sevo_foldl_sub (fps V : ℚ) (l : List AudioClip) : ∀ i : ℚ,
    l.foldl
      (fun acc clip =>
        if clip.category = AudioCategory.se ∨ clip.category = AudioCategory.vo then
          max acc (clip.start_seconds fps + clip.duration_seconds)
        else acc) i - V =
    ((l.filter
        (fun c => decide (c.category = AudioCategory.se ∨ c.category = AudioCategory.vo))).map
      (fun c => c.start_seconds fps + c.duration_seconds - V)).foldl max (i - V) := by
  induction l with
  | nil => intro i; rfl
  | cons c l ih =>
    intro i
    by_cases hc : c.category = AudioCategory.se ∨ c.category = AudioCategory.vo
    · rw [List.filter_cons_of_pos (by exact decide_eq_true hc)]
      simp only [List.foldl_cons, if_pos hc, List.map_cons]
      rw [ih (max i (c.start_seconds fps + c.duration_seconds))]
      rw [← max_sub_sub_right i (c.start_seconds fps + c.duration_seconds) V]
    · rw [List.filter_cons_of_neg (by simpa using hc)]
      simp only [List.foldl_cons, if_neg hc]
      exact ih i

theorem filters_nonempty_shape (b : Bool) (co : List String) (cf ofs : List String)
    (ol : String) (mk : List String → String) (hco : co ≠ []) :
    (let audio_outputs := if b then co ++ [ol] else co
     let audio_filters := if b then cf ++ ofs else cf
     if audio_outputs ≠ [] then audio_filters ++ [mk audio_outputs] else audio_filters) ≠
      [] := by
  cases b <;> simp [hco]

theorem build_plan_audio_filters_eq (rngU : RngStream) (uuidHex : String) (s : MixSession) :
    (MixPlanner.build_plan rngU uuidHex s).audio_filters =
      (let clipResults := s.audio_clips.enum.map
          (fun ic => MixPlanner._build_clip_filters rngU ic.1 ic.2 s)
       let include_original := !s.config.override_original && s.video_clip.has_audio
       let clip_filters := clipResults.flatMap (fun r => r.2)
       let clip_outputs := clipResults.map (fun r => r.1)
       let audio_outputs := if include_original then
           clip_outputs ++ [(MixPlanner._build_original_filters s).1] else clip_outputs
       let audio_filters := if include_original then
           clip_filters ++ (MixPlanner._build_original_filters s).2 else clip_filters
       if audio_outputs ≠ [] then
         audio_filters ++
           [String.join (audio_outputs.map (fun label => "[" ++ label ++ "]")) ++
             "amix=inputs=" ++ toString audio_outputs.length ++
             ":normalize=" ++ toString ((if s.config.enable_limiter then 1 else 0 : ℕ)) ++
             "[aout]"]
       else audio_filters) := rfl

/-! Claim theorems. -/

/-- C2: whenever some EFFECT (SE) or VOICE (VO) clip ends past the video
end, the plan needs the black extension and its duration is exactly the
largest per-clip overrun `S + D - V` (the maximum, not the sum). -/
theorem black_extension_max_overrun (rngU : RngStream) (uuidHex : String) (s : MixSession)
    (h : ∃ c ∈ s.audio_clips,
      (c.category = AudioCategory.se ∨ c.category = AudioCategory.vo) ∧
        s.video_clip.duration_seconds <
          c.start_seconds s.video_clip.fps + c.duration_seconds) :
    (MixPlanner.build_plan rngU uuidHex s).needs_black_extension = true ∧
    (MixPlanner.build_plan rngU uuidHex s).black_extension_duration =
      ((s.audio_clips.filter
          (fun c => decide (c.category = AudioCategory.se ∨ c.category = AudioCategory.vo))).map
        (fun c => c.start_seconds s.video_clip.fps + c.duration_seconds -
          s.video_clip.duration_seconds)).foldl max 0 := by
  obtain ⟨c, hcmem, hcsevo, hclt⟩ := h
  have hx :
      (c.start_seconds s.video_clip.fps + c.duration_seconds - s.video_clip.duration_seconds) ∈
        ((s.audio_clips.filter
            (fun c => decide (c.category = AudioCategory.se ∨ c.category = AudioCategory.vo))).map
          (fun c => c.start_seconds s.video_clip.fps + c.duration_seconds -
            s.video_clip.duration_seconds)) :=
    List.mem_map_of_mem _ (List.mem_filter.mpr ⟨hcmem, decide_eq_true hcsevo⟩)
  have hfoldpos :
      0 < ((s.audio_clips.filter
          (fun c => decide (c.category = AudioCategory.se ∨ c.category = AudioCategory.vo))).map
        (fun c => c.start_seconds s.video_clip.fps + c.duration_seconds -
          s.video_clip.duration_seconds)).foldl max 0 :=
    lt_of_lt_of_le (sub_pos.mpr hclt) (foldl_max_mem _ 0 _ hx)
  have hbed : s.black_extension_duration =
      ((s.audio_clips.filter
          (fun c => decide (c.category = AudioCategory.se ∨ c.category = AudioCategory.vo))).map
        (fun c => c.start_seconds s.video_clip.fps + c.duration_seconds -
          s.video_clip.duration_seconds)).foldl max 0 := by
    simp only [MixSession.black_extension_duration]
    rw [sevo_foldl_sub]
    rw [sub_self]
    exact max_eq_right (le_foldl_max _ 0)
  exact ⟨by rw [build_plan_needs, hbed]; exact decide_eq_true hfoldpos,
    by rw [build_plan_bed, hbed]⟩

/-- Witness for C2: a 5 s video with a 6 s SE clip at frame 0 gets a 1 s
extension. -/
theorem black_extension_max_overrun_witness :
    (MixPlanner.build_plan exRng "tok" exSessionSeVo).needs_black_extension = true ∧
    (MixPlanner.build_plan exRng "tok" exSessionSeVo).black_extension_duration =
      ((exSessionSeVo.audio_clips.filter
          (fun c => decide (c.category = AudioCategory.se ∨ c.category = AudioCategory.vo))).map
        (fun c => c.start_seconds exSessionSeVo.video_clip.fps + c.duration_seconds -
          exSessionSeVo.video_clip.duration_seconds)).foldl max 0 :=
  black_extension_max_overrun exRng "tok" exSessionSeVo
    ⟨exSeClip, List.mem_cons_self _ _, Or.inl rfl, by
      show exSessionSeVo.video_clip.duration_seconds <
        exSeClip.start_seconds exSessionSeVo.video_clip.fps + exSeClip.duration_seconds
      simp only [exSessionSeVo, exSeClip, exVideo, AudioClip.start_seconds]
      norm_num⟩

/-- C3: MUSIC clips never drive the extension — a session whose clips are
all MUSIC yields a plan with no extension regardless of their durations. -/
theorem music_never_extends (rngU : RngStream) (uuidHex : String) (s : MixSession)
    (hmusic : ∀ c ∈ s.audio_clips, c.category = AudioCategory.music) :
    (MixPlanner.build_plan rngU uuidHex s).needs_black_extension = false ∧
    (MixPlanner.build_plan rngU uuidHex s).black_extension_duration = 0 := by
  have hbed : s.black_extension_duration = 0 := by
    simp only [MixSession.black_extension_duration]
    rw [sevo_foldl_music s.video_clip.fps s.audio_clips s.video_clip.duration_seconds hmusic]
    simp
  exact ⟨by rw [build_plan_needs, hbed]; rfl, by rw [build_plan_bed, hbed]⟩

/-- Witness for C3: a session whose only clip is a 20 s MUSIC clip over a
5 s video still needs no extension. -/
theorem music_never_extends_witness :
    (MixPlanner.build_plan exRng "tok" exSessionMusicOnly).needs_black_extension = false ∧
    (MixPlanner.build_plan exRng "tok" exSessionMusicOnly).black_extension_duration = 0 :=
  music_never_extends exRng "tok" exSessionMusicOnly (by decide)

theorem foldl_range_last (f : ℕ → ℚ) (n : ℕ) (x : ℚ) :
    (List.range (n + 1)).foldl (fun _ k => f k) x = f n := by
  rw [List.range_succ, List.foldl_append]
  rfl

/-- C6: the random music offset is 0 when the clip fits inside the video;
with unit draws it stays within `[0, max 0 (clip.duration - video.duration)]`;
and when the clip overruns a positive-length video the offset is the
`max(retry_limit, 1)`-th draw — earlier draws are discarded, and only the
last is kept. -/
theorem random_offset_spec (rngU : RngStream) (clip : AudioClip) (s : MixSession) :
    (clip.duration_seconds ≤ s.video_clip.duration_seconds →
      MixPlanner._random_music_offset rngU clip s = 0) ∧
    ((∀ sd k, 0 ≤ rngU sd k ∧ rngU sd k ≤ 1) →
      0 ≤ MixPlanner._random_music_offset rngU clip s ∧
      MixPlanner._random_music_offset rngU clip s ≤
        max 0 (clip.duration_seconds - s.video_clip.duration_seconds)) ∧
    (0 < s.video_clip.duration_seconds →
      s.video_clip.duration_seconds < clip.duration_seconds →
      MixPlanner._random_music_offset rngU clip s =
        max (clip.duration_seconds - s.video_clip.duration_seconds) 0 *
          rngU s.config.music_random_seed
            ((max s.config.music_retry_limit 1).toNat - 1)) := by
  have hA : 1 ≤ (max s.config.music_retry_limit 1).toNat := by
    have h1 : (1 : ℤ) ≤ max s.config.music_retry_limit 1 := le_max_right _ _
    omega
  obtain ⟨m, hm⟩ : ∃ m, (max s.config.music_retry_limit 1).toNat = m + 1 :=
    ⟨(max s.config.music_retry_limit 1).toNat - 1, by omega⟩
  refine ⟨?_, ?_, ?_⟩
  · intro hfits
    simp only [MixPlanner._random_music_offset]
    split_ifs with h1 h2
    · rfl
    · rfl
    · exfalso
      apply h2
      have hvd : 0 < s.video_clip.duration_seconds := by
        rcases not_or.mp h1 with ⟨hv, _⟩
        exact lt_of_not_le hv
      have : max clip.duration_seconds 0 ≤ s.video_clip.duration_seconds :=
        max_le hfits hvd.le
      exact max_le (sub_nonpos.mpr this) (le_refl 0)
  · intro hu
    simp only [MixPlanner._random_music_offset]
    split_ifs with h1 h2
    · exact ⟨le_refl 0, le_max_left 0 _⟩
    · exact ⟨le_refl 0, le_max_left 0 _⟩
    · rw [hm, foldl_range_last (fun k =>
        max (max clip.duration_seconds 0 - s.video_clip.duration_seconds) 0 *
          rngU s.config.music_random_seed k)]
      have hms : (0 : ℚ) ≤ max (max clip.duration_seconds 0 - s.video_clip.duration_seconds) 0 :=
        le_max_right _ _
      have hdurpos : 0 < clip.duration_seconds := by
        rcases not_or.mp h1 with ⟨_, ht⟩
        have := lt_of_not_le ht
        rcases max_cases clip.duration_seconds (0 : ℚ) with ⟨he, _⟩ | ⟨he, _⟩
        · rwa [he] at this
        · rw [he] at this; exact absurd this (lt_irrefl 0)
      constructor
      · exact mul_nonneg hms (hu s.config.music_random_seed m).1
      · calc max (max clip.duration_seconds 0 - s.video_clip.duration_seconds) 0 *
              rngU s.config.music_random_seed m ≤
            max (max clip.duration_seconds 0 - s.video_clip.duration_seconds) 0 * 1 := by
              exact mul_le_mul_of_nonneg_left (hu s.config.music_random_seed m).2 hms
          _ = max (max clip.duration_seconds 0 - s.video_clip.duration_seconds) 0 := mul_one _
          _ = max 0 (clip.duration_seconds - s.video_clip.duration_seconds) := by
              rw [max_eq_left hdurpos.le, max_comm]
  · intro hvd hover
    simp only [MixPlanner._random_music_offset]
    have hdur : (0 : ℚ) < clip.duration_seconds := lt_trans hvd hover
    have htotal : max clip.duration_seconds 0 = clip.duration_seconds := max_eq_left hdur.le
    split_ifs with h1 h2
    · exfalso
      rcases h1 with h | h
      · exact absurd hvd (not_lt.mpr h)
      · rw [htotal] at h
        exact absurd hdur (not_lt.mpr h)
    · exfalso
      rw [htotal] at h2
      have : clip.duration_seconds - s.video_clip.duration_seconds ≤ 0 :=
        le_trans (le_max_left _ 0) h2
      exact absurd (sub_pos.mpr hover) (not_lt.mpr this)
    · rw [hm, foldl_range_last (fun k =>
        max (max clip.duration_seconds 0 - s.video_clip.duration_seconds) 0 *
          rngU s.config.music_random_seed k)]
      rw [htotal]
      simp

/-- Witness for C6 on a 20 s music clip over a 5 s video. -/
theorem random_offset_spec_witness :
    (0 : ℚ) < exSessionMusicOnly.video_clip.duration_seconds ∧
    exSessionMusicOnly.video_clip.duration_seconds < exMusicClip.duration_seconds ∧
    MixPlanner._random_music_offset exRng exMusicClip exSessionMusicOnly =
      max (exMusicClip.duration_seconds - exSessionMusicOnly.video_clip.duration_seconds) 0 *
        exRng exSessionMusicOnly.config.music_random_seed
          ((max exSessionMusicOnly.config.music_retry_limit 1).toNat - 1) :=
  ⟨by decide, by decide,
    (random_offset_spec exRng exMusicClip exSessionMusicOnly).2.2 (by decide) (by decide)⟩

/-- C5: the filter-chain text produced by the plan builder depends on the
random generator only through the stream determined by the configured
seed — with a fixed seed and identical inputs the text is identical, with
no hidden state. -/
theorem plan_text_deterministic (s : MixSession) (uuidHex : String) (seedv : ℤ)
    (rngU rngU' : RngStream)
    (hseed : s.config.music_random_seed = some seedv)
    (hagree : ∀ k, rngU (some seedv) k = rngU' (some seedv) k) :
    (MixPlanner.build_plan rngU uuidHex s).audio_filters =
      (MixPlanner.build_plan rngU' uuidHex s).audio_filters := by
  have hoff : ∀ c, MixPlanner._random_music_offset rngU c s =
      MixPlanner._random_music_offset rngU' c s := by
    intro c
    simp only [MixPlanner._random_music_offset, hseed, hagree]
  have hbcf : ∀ (i : ℕ) (c : AudioClip),
      MixPlanner._build_clip_filters rngU i c s =
        MixPlanner._build_clip_filters rngU' i c s := by
    intro i c
    simp only [MixPlanner._build_clip_filters, hoff]
  simp only [MixPlanner.build_plan, hbcf]

/-- Witness for C5 at seed 7. -/
theorem plan_text_deterministic_witness :
    exSessionSeVo.config.music_random_seed = some 7 ∧
    (MixPlanner.build_plan exRng "u" exSessionSeVo).audio_filters =
      (MixPlanner.build_plan exRng "u" exSessionSeVo).audio_filters :=
  ⟨rfl, plan_text_deterministic exSessionSeVo "u" 7 exRng exRng rfl (fun _ => rfl)⟩

/-- C9 counterexample: with `fps = 11.0` and `start_frame = 15` the
binary64 round-trip loses a frame — `15 / 11.0` rounds to
`6141272219141585 / 2^52`, multiplying back by 11 rounds to
`14.999999999999998`, and `int` truncates that to 14, not 15.  So the
frames-to-seconds-to-frames round-trip does not recover the original
frame count for all frame rates greater than zero. -/
theorem frames_roundtrip_float_counterexample :
    MediaRepository.updated_start_frame (exClipFrame15.start_seconds_fl 11) 11 = some 14 ∧
    some (14 : ℤ) ≠ some (15 : ℤ) := by
  constructor
  · have hss : exClipFrame15.start_seconds_fl 11 = 6141272219141585 / 4503599627370496 := by
      simp only [AudioClip.start_seconds_fl]
      rw [show exClipFrame15.start_frame = some 15 from rfl]
      simp only [Option.getD_some]
      rw [if_neg (by norm_num)]
      rw [show (((15:ℤ):ℚ)/11) = (15:ℚ)/11 by norm_num]
      exact fl_15_11
    rw [hss]
    unfold MediaRepository.updated_start_frame
    rw [if_pos (by norm_num), fl_prod_15_11]
    have hpy : pyInt ((8444249301319679 : ℚ) / 562949953421312) = 14 := by
      unfold pyInt
      rw [if_pos (by norm_num), Int.floor_eq_iff]
      constructor <;> norm_num
    rw [hpy]
  · decide

/-- C9 (amended): for every positive frame rate and every frame count
`1 ≤ n ≤ 2^51`, the binary64 round-trip through `start_seconds` and the
repository update recovers the original frame count or undershoots by
exactly one frame; it does not recover `n` universally — at `fps = 11`,
`n = 15` it yields 14. -/
theorem frames_seconds_roundtrip_fl (clip : AudioClip) (n : ℤ) (fps : ℚ)
    (hframe : clip.start_frame = some n) (hfps : 0 < fps) (hn1 : 1 ≤ n)
    (hn2 : n ≤ 2 ^ 51) :
    MediaRepository.updated_start_frame (clip.start_seconds_fl fps) fps = some n ∨
    MediaRepository.updated_start_frame (clip.start_seconds_fl fps) fps = some (n - 1) := by
  simp only [AudioClip.start_seconds_fl, MediaRepository.updated_start_frame]
  rw [hframe]
  simp only [Option.getD_some]
  rw [if_neg (not_le.mpr hfps), if_pos hfps]
  rcases pyInt_roundtrip_fl n fps hfps hn1 hn2 with h | h
  · left; rw [h]
  · right; rw [h]

/-- Witness for the amended C9 at frame 3 and 25 fps. -/
theorem frames_seconds_roundtrip_fl_witness :
    exVoClip.start_frame = some 3 ∧ (0 : ℚ) < 25 ∧ (1 : ℤ) ≤ 3 ∧ (3 : ℤ) ≤ 2 ^ 51 ∧
    (MediaRepository.updated_start_frame (exVoClip.start_seconds_fl 25) 25 = some 3 ∨
      MediaRepository.updated_start_frame (exVoClip.start_seconds_fl 25) 25 = some (3 - 1)) :=
  ⟨rfl, by decide, by decide, by norm_num,
    frames_seconds_roundtrip_fl exVoClip 3 25 rfl (by decide) (by decide) (by norm_num)⟩

/-- C7: the plan includes the original soundtrack iff the override flag is
off and the video has native audio, and the original chain is exactly the
optional global-lead delay (present only for a positive lead) followed by
the terminating `anull` rename — no trim or source-offset fragments. -/
theorem original_chain_rule (rngU : RngStream) (uuidHex : String) (s : MixSession) :
    (MixPlanner.build_plan rngU uuidHex s).include_original_audio =
      (!s.config.override_original && s.video_clip.has_audio) ∧
    MixPlanner._build_original_filters s =
      ("orig_audio",
        if 0 < s.config.video_audio_lead then
          ["[0:a]adelay=" ++ toString (pyInt (s.config.video_audio_lead * 1000)) ++ "|" ++
              toString (pyInt (s.config.video_audio_lead * 1000)) ++ "[orig_audio_delay]",
            "[orig_audio_delay]anull[orig_audio]"]
        else ["[0:a]anull[orig_audio]"]) ∧
    ((!s.config.override_original && s.video_clip.has_audio) = true →
      ∃ pre post, (MixPlanner.build_plan rngU uuidHex s).audio_filters =
        pre ++ ((MixPlanner._build_original_filters s).2 ++ post)) := by
  refine ⟨rfl, ?_, ?_⟩
  case refine_2 =>
    intro hinc
    rw [build_plan_audio_filters_eq]
    simp only [hinc, if_true, Bool.true_eq, List.append_assoc, ne_eq, List.append_eq_nil,
      List.cons_ne_self, and_false, not_false_eq_true, if_pos]
    exact ⟨_, _, rfl⟩
  · rcases lt_or_le 0 s.config.video_audio_lead with hpos | hneg
    · have hmax : max 0 s.config.video_audio_lead = s.config.video_audio_lead :=
        max_eq_right hpos.le
      have hne : ("[" ++ "orig_audio" ++ "_delay]" : String) ≠ "[" ++ "orig_audio" ++ "]" := by
        decide
      simp only [MixPlanner._build_original_filters, hmax, if_pos hpos, if_pos hne,
        List.nil_append]
      refine Prod.ext rfl ?_
      simp only [List.singleton_append]
      refine List.cons_eq_cons.mpr ⟨?_, rfl⟩
      apply String.ext
      simp [String.data_append]
    · have hnpos : ¬ 0 < s.config.video_audio_lead := not_lt.mpr hneg
      have hmax : max 0 s.config.video_audio_lead = 0 := max_eq_left hneg
      have hne : ("[0:a]" : String) ≠ "[" ++ "orig_audio" ++ "]" := by decide
      simp only [MixPlanner._build_original_filters, hmax, if_neg (lt_irrefl (0 : ℚ)),
        if_pos hne, List.nil_append]
      rw [if_neg hnpos]
      rfl

/-- Witness for C7: the example session keeps the original soundtrack and
its chain appears in the plan's filter list. -/
theorem original_chain_rule_witness :
    (!exSessionSeVo.config.override_original && exSessionSeVo.video_clip.has_audio) = true ∧
    ∃ pre post, (MixPlanner.build_plan exRng "tok" exSessionSeVo).audio_filters =
      pre ++ ((MixPlanner._build_original_filters exSessionSeVo).2 ++ post) :=
  ⟨by decide, (original_chain_rule exRng "tok" exSessionSeVo).2.2 (by decide)⟩

/-- C4 counterexample: with two matching audio files whose pre-mix ffmpeg
invocation returns non-zero, `process_video_task` reports `skipped`, not
`failed` — an external-tool failure is classified as a skip. -/
theorem premix_failure_marked_skipped :
    MixScript.process_video_task exEnvPremixFail = MixScript.TaskStatus.skipped ∧
    MixScript.premix_invoked exEnvPremixFail.audioDirExists exEnvPremixFail.matching = true ∧
    exEnvPremixFail.premixOk = false :=
  ⟨rfl, rfl, rfl⟩

/-- C4 (amended): a job is skipped exactly when no external audio was
prepared — no matching file, a missing audio directory, or a failed
pre-mix of several matched files; every later failure yields `failed`. -/
theorem skipped_iff_no_prepared_audio (e : MixScript.TaskEnv) :
    MixScript.process_video_task e = MixScript.TaskStatus.skipped ↔
      (MixScript.find_and_mix_audio e.audioDirExists e.matching e.premixOk e.tempName).1 =
        none := by
  unfold MixScript.process_video_task
  cases hfm : (MixScript.find_and_mix_audio e.audioDirExists e.matching e.premixOk e.tempName).1 with
  | none => simp [hfm]
  | some a =>
    simp only [hfm]
    cases e.videoDuration with
    | none => simp
    | some vd =>
      cases e.externalDuration with
      | none => simp
      | some ad => split_ifs <;> (try simp) <;> (split <;> simp)

/-- C1 counterexample: when black-clip generation succeeds and the concat
invocation fails, the executor returns early and the black clip and the
concat list it created remain on disk. -/
theorem concat_failure_leaves_temps :
    (TaskExecutor._run_plan exPlanExt exBehConcatFail "out.mp4").remainingTemp =
      ["v_black.mp4", "v_concat.txt"] ∧
    (TaskExecutor._run_plan exPlanExt exBehConcatFail "out.mp4").remainingTemp ≠ [] :=
  ⟨rfl, by decide⟩

/-- C1 (amended): the cleanup loop removes every temp artifact only on
runs where the extension pipeline succeeded (or was not needed),
regardless of the final mux outcome; mid-pipeline failures return before
the loop. -/
theorem cleanup_after_successful_extension (plan : MixPlan) (beh : TaskExecutor.AdapterBeh)
    (output_path : String) (hb : beh.blackRc = 0) (hc : beh.concatRc = 0) :
    (TaskExecutor._run_plan plan beh output_path).remainingTemp = [] := by
  unfold TaskExecutor._run_plan
  split
  · rw [if_neg (by simp [hb]), if_neg (by simp [hc])]
    simp
  · rfl

/-- Witness for the amended C1 on a run where every invocation succeeds. -/
theorem cleanup_after_successful_extension_witness :
    exBehAllOk.blackRc = 0 ∧ exBehAllOk.concatRc = 0 ∧
    (TaskExecutor._run_plan exPlanExt exBehAllOk "out.mp4").remainingTemp = [] :=
  ⟨rfl, rfl, cleanup_after_successful_extension exPlanExt exBehAllOk "out.mp4" rfl rfl⟩

/-- C8 counterexample: a plan with no audio chain and two audio inputs is
not mapped video-only — the executor maps the first audio input
(`1:a:0`) whenever any audio input exists, not only when there is exactly
one. -/
theorem two_inputs_no_chain_maps_first_audio :
    TaskExecutor._final_command exPlanDirect "v.mp4" "out.mp4" =
      ["-i", "v.mp4", "-i", "x.wav", "-i", "y.wav", "-map", "0:v:0", "-map", "1:a:0",
        "out.mp4"] ∧
    TaskExecutor._final_command exPlanDirect "v.mp4" "out.mp4" ≠
      ["-i", "v.mp4", "-i", "x.wav", "-i", "y.wav", "-map", "0:v:0", "out.mp4"] :=
  ⟨rfl, by decide⟩

/-- C8 (amended): the final invocation's stream mapping follows the
three-case rule with "at least one audio input" in the middle case: an
audio chain maps video plus the named mix label, no chain but a nonempty
audio input list maps the first audio input directly, and no chain with no
audio inputs maps video only. -/
theorem stream_mapping_three_cases (plan : MixPlan) (video_input output_path : String) :
    (plan.audio_filters ≠ [] →
      TaskExecutor._final_command plan video_input output_path =
        (["-i", video_input] ++ plan.audio_inputs.flatMap (fun p => ["-i", p])) ++
          ["-filter_complex", String.intercalate ";" plan.audio_filters,
            "-map", "0:v:0", "-map", "[" ++ plan.audio_output_label ++ "]"] ++
          plan.output_args ++ [output_path]) ∧
    (plan.audio_filters = [] → plan.audio_inputs ≠ [] →
      TaskExecutor._final_command plan video_input output_path =
        (["-i", video_input] ++ plan.audio_inputs.flatMap (fun p => ["-i", p])) ++
          ["-map", "0:v:0", "-map", "1:a:0"] ++ plan.output_args ++ [output_path]) ∧
    (plan.audio_filters = [] → plan.audio_inputs = [] →
      TaskExecutor._final_command plan video_input output_path =
        ["-i", video_input] ++ ["-map", "0:v:0"] ++ plan.output_args ++ [output_path]) := by
  refine ⟨fun hf => ?_, fun hf hi => ?_, fun hf hi => ?_⟩
  · simp only [TaskExecutor._final_command, if_pos hf]
    try simp [List.append_assoc]
  · simp only [TaskExecutor._final_command, if_neg (not_not_intro hf), if_pos hi]
    try simp [List.append_assoc]
  · simp only [TaskExecutor._final_command, if_neg (not_not_intro hf),
      if_neg (not_not_intro hi), hi]
    try simp [List.append_assoc]

/-- Witness for the amended C8 at a plan with a one-fragment chain. -/
theorem stream_mapping_three_cases_witness :
    exPlanFiltered.audio_filters ≠ [] ∧
    TaskExecutor._final_command exPlanFiltered "v.mp4" "out.mp4" =
      (["-i", "v.mp4"] ++ exPlanFiltered.audio_inputs.flatMap (fun p => ["-i", p])) ++
        ["-filter_complex", String.intercalate ";" exPlanFiltered.audio_filters,
          "-map", "0:v:0", "-map", "[" ++ exPlanFiltered.audio_output_label ++ "]"] ++
        exPlanFiltered.output_args ++ ["out.mp4"] :=
  ⟨by decide, (stream_mapping_three_cases exPlanFiltered "v.mp4" "out.mp4").1 (by decide)⟩

theorem initial_ref_ne (i : ℕ) :
    ("[" ++ toString (i + 1) ++ ":a]" : String) ≠ "[" ++ ("a" ++ toString i) ++ "]" := by
  intro h
  obtain ⟨c, cs, hc, hdig⟩ := natRepr_head_digit (i + 1)
  have h2 : (toString (i + 1) : String).data = c :: cs := hc
  have hd := congrArg String.data h
  simp [String.data_append, h2] at hd
  rw [hd.1] at hdig
  exact absurd hdig (by decide)

theorem flt_ref_ne (L : String) (k : ℕ) :
    ("[" ++ (L ++ "_flt_" ++ toString k) ++ "]" : String) ≠ "[" ++ L ++ "]" := by
  intro h
  have hlen := congrArg String.length h
  simp only [String.length_append] at hlen
  have hk : 0 < (toString k : String).length := natRepr_length_pos k
  have h5 : ("_flt_" : String).length = 5 := rfl
  have h1 : ("[" : String).length = 1 := rfl
  have h2 : ("]" : String).length = 1 := rfl
  rw [h5, h1, h2] at hlen
  omega

theorem terminator_emitted (idx : ℕ) (st : MixPlanner.ChainState)
    (h : st.current_ref = "[" ++ toString (idx + 1) ++ ":a]" ∨
      ∃ k : ℕ, st.current_ref = "[" ++ (("a" ++ toString idx) ++ "_flt_" ++ toString k) ++ "]") :
    (if st.current_ref ≠ "[" ++ ("a" ++ toString idx) ++ "]" then
        st.filters ++ [st.current_ref ++ "anull[" ++ ("a" ++ toString idx) ++ "]"]
      else st.filters) =
      st.filters ++ [st.current_ref ++ "anull[" ++ ("a" ++ toString idx) ++ "]"] := by
  rw [if_pos]
  rcases h with h | ⟨k, h⟩
  · rw [h]; exact initial_ref_ne idx
  · rw [h]; exact flt_ref_ne ("a" ++ toString idx) k

/-- C10: every clip chain emits at least one fragment — it always ends in
the `anull` rename to its unique `a{index}` label — and consequently a
plan built from a session with audio inputs has a non-empty filter list,
so the executor's direct-mapping branch cannot fire for planner-built
plans. -/
theorem clip_chain_terminated (rngU : RngStream) (uuidHex : String)
    (s : MixSession) (index : ℕ) (clip : AudioClip) :
    (∃ fs ref, (MixPlanner._build_clip_filters rngU index clip s).2 =
        fs ++ [ref ++ "anull[" ++ ("a" ++ toString index) ++ "]"]) ∧
    ((MixPlanner.build_plan rngU uuidHex s).audio_inputs ≠ [] →
      (MixPlanner.build_plan rngU uuidHex s).audio_filters ≠ []) := by
  constructor
  · simp only [MixPlanner._build_clip_filters]
    refine ⟨_, _, terminator_emitted index _ ?_⟩
    cases htr : MixPlanner._music_length_trim s <;>
      simp only [htr] <;>
      split_ifs <;>
      simp only [MixPlanner.applyFilter] <;>
      first
        | (left; trivial)
        | (right; exact ⟨_, rfl⟩)
  · intro hinp
    have hclips : s.audio_clips ≠ [] := by
      intro h0
      apply hinp
      have hi : (MixPlanner.build_plan rngU uuidHex s).audio_inputs =
          s.audio_clips.map (fun c => c.file_path) := rfl
      rw [hi, h0]
      rfl
    rw [build_plan_audio_filters_eq]
    have hco : (s.audio_clips.enum.map
        (fun ic => MixPlanner._build_clip_filters rngU ic.1 ic.2 s)).map (fun r => r.1) ≠
          [] := by
      simp [List.enum_eq_nil, hclips]
    exact filters_nonempty_shape (!s.config.override_original && s.video_clip.has_audio)
      ((s.audio_clips.enum.map
        (fun ic => MixPlanner._build_clip_filters rngU ic.1 ic.2 s)).map (fun r => r.1))
      ((s.audio_clips.enum.map
        (fun ic => MixPlanner._build_clip_filters rngU ic.1 ic.2 s)).flatMap (fun r => r.2))
      (MixPlanner._build_original_filters s).2
      (MixPlanner._build_original_filters s).1
      (fun outs => String.join (outs.map (fun label => "[" ++ label ++ "]")) ++
        "amix=inputs=" ++ toString outs.length ++
        ":normalize=" ++ toString ((if s.config.enable_limiter then 1 else 0 : ℕ)) ++
        "[aout]")
      hco

/-- Witness for C10: the one-SE-clip session yields a non-empty filter
list. -/
theorem clip_chain_terminated_witness :
    (MixPlanner.build_plan exRng "tok" exSessionSeVo).audio_filters ≠ [] :=
  (clip_chain_terminated exRng "tok" exSessionSeVo 0 exSeClip).2 (by decide)

end VideoToolkit
